import Mathlib

/-!
Verification of the NADA/DDI harvester
(`ckanext/ddi/harvesters/ddiharvester.py`).

The harvester is a three-stage pipeline: paginated discovery of record
identifiers (`gather_stage`), per-record retrieval (`fetch_stage`), and
normalization of a parsed raw attribute map into a package dictionary
(`import_stage`, with the reclassification helper `_convert_to_extras`).

Python dictionaries with heterogeneous values are embedded as ordered
association lists over an inductive `Value` type; dictionary iteration
order is modelled by list order (insertion order).  Fallible Python code
(raised exceptions) is embedded with `Except`.
-/

set_option maxHeartbeats 1000000

/-- A Python value as it occurs in the harvester's package dictionaries:
strings, integers, `(key, value)` tuples (as appended to `extras`),
lists, and resource dictionaries `{url, name, format}` (as built in the
resources step of `import_stage`). -/
inductive Value where
  | str : String → Value
  | int : Int → Value
  | tup : String → Value → Value
  | vlist : List Value → Value
  | res : Value → String → String → Value

/-- A Python dict in insertion order: an association list from string
keys to values.  Dicts have unique keys; theorems that need this take a
`Nodup` hypothesis on the key list. -/
abbrev Dict := List (String × Value)

/-- `d[k]` / `k in d`: first binding of key `k`, if any. -/
def dlookup (d : Dict) (k : String) : Option Value :=
  match d with
  | [] => none
  | (k2, v) :: rest => if k2 = k then some v else dlookup rest k

/-- Rebind key `k` to `v` in a single entry, leaving other keys
alone. -/
def updKey (k : String) (v : Value) (kv : String × Value) : String × Value :=
  if kv.1 = k then (k, v) else kv

/-- `d[k] = v`: update the binding in place if the key is present
(keeping its position), otherwise append it (Python dict insertion
order). -/
def setKey (d : Dict) (k : String) (v : Value) : Dict :=
  if (dlookup d k).isSome then d.map (updKey k v) else d ++ [(k, v)]

/-- `NadaHarvester.DEFAULT_ATTRIBUTES`: the fixed recognized CKAN
attribute names. -/
def DEFAULT_ATTRIBUTES : List String :=
  ["id", "name", "title", "url", "author", "author_email",
   "maintainer", "maintainer_email", "license_id", "version",
   "notes", "tags", "extras"]

/-- `key in DEFAULT_ATTRIBUTES`. -/
def isDefaultAttr (k : String) : Bool :=
  DEFAULT_ATTRIBUTES.contains k

/-- First half of the `if 'extras' not in pkg_dict` guard of
`_convert_to_extras`: initialize `extras` to the empty list when
absent. -/
def ensureExtras (d : Dict) : Dict :=
  if (dlookup d "extras").isSome then d else d ++ [("extras", Value.vlist [])]

/-- The `(key, pkg_dict[key])` tuples appended to `extras` by the loop
of `_convert_to_extras`, in dict iteration order: one per key not in
`DEFAULT_ATTRIBUTES`. -/
def movedPairs (d : Dict) : List Value :=
  (d.filter (fun kv => !(isDefaultAttr kv.1))).map (fun kv => Value.tup kv.1 kv.2)

/-- `NadaHarvester._convert_to_extras`: initialize `extras` if missing,
append every `(key, value)` with an unrecognized key to the `extras`
list (iteration order), then delete those keys from the dict.  The
`.error` case models the `AttributeError` Python raises when a
pre-existing `extras` value is not a list. -/
def convert_to_extras (d : Dict) : Except Unit Dict :=
  let d1 := ensureExtras d
  match dlookup d1 "extras" with
  | some (Value.vlist es) =>
      let newExtras := Value.vlist (es ++ movedPairs d1)
      Except.ok
        ((d1.map (updKey "extras" newExtras)).filter (fun kv => isDefaultAttr kv.1))
  | _ => Except.error ()

/-- The `extras` entry of a dict, when present and a list. -/
def extrasList (d : Dict) : Option (List Value) :=
  match dlookup d "extras" with
  | some (Value.vlist es) => some es
  | _ => none

/-- The elements of an `extras` list that are tuples with key `k`. -/
def tupsWithKey (es : List Value) (k : String) : List Value :=
  es.filter (fun v => match v with | Value.tup k2 _ => k2 = k | _ => false)

/-! ## String helpers and external collaborators -/

/-- Python `s.rstrip('/')`: drop trailing slash characters. -/
def rstripSlash (s : String) : String :=
  String.mk ((s.data.reverse.dropWhile (fun c => c = '/')).reverse)

/-- Python slicing `s[:n]` on a string. -/
def pyTake (s : String) (n : Nat) : String :=
  String.mk (s.data.take n)

/-- Collapse runs of consecutive dashes to a single dash. -/
def collapseDashes : List Char → List Char
  | [] => []
  | c :: rest =>
    match collapseDashes rest with
    | [] => [c]
    | d :: ds => if c = '-' ∧ d = '-' then d :: ds else c :: d :: ds

/-- Modelled from the spec: the external `ckan.lib.munge.munge_tag`
collaborator (not part of this repository), described as "the canonical
tag-munging transform (lower-case, replace disallowed characters,
collapse repeats)": lower-case the tag, keep alphanumerics and dashes,
turn spaces into dashes, drop every other character, and collapse runs
of dashes. -/
def munge_tag (s : String) : String :=
  String.mk (collapseDashes
    ((s.data.map Char.toLower).filterMap (fun c =>
      if c.isAlphanum ∨ c = '-' then some c
      else if c = ' ' then some '-' else none)))

/-- Python `str(v)`, as used in the `'DDI XML of %s'` resource name.
Exact for the string and integer values the harvester's inputs carry;
the rendering of the remaining cases abstracts Python `repr`, which no
claim depends on. -/
def pyStr : Value → String
  | Value.str s => s
  | Value.int n => toString n
  | Value.tup _ _ => "(tuple)"
  | Value.vlist _ => "(list)"
  | Value.res _ _ _ => "(dict)"

/-- Python iteration `for x in v`: the element sequence of a value, or
`none` for the non-iterable values (`TypeError`).  A string iterates
as its one-character substrings, a tuple as its two components, a dict
as its keys. -/
def iterElems : Value → Option (List Value)
  | Value.vlist ts => some ts
  | Value.str s => some (s.data.map (fun c => Value.str (String.mk [c])))
  | Value.tup k v => some [Value.str k, v]
  | Value.res _ _ _ => some [Value.str "url", Value.str "name", Value.str "format"]
  | Value.int _ => none

/-- Python slicing `v[:100]` as applied to `pkg_dict['version']`:
defined on strings, lists and tuples (a 2-tuple is unchanged), a
`TypeError` otherwise. -/
def slice100 : Value → Option Value
  | Value.str s => some (Value.str (pyTake s 100))
  | Value.vlist vs => some (Value.vlist (vs.take 100))
  | Value.tup k v => some (Value.tup k v)
  | _ => none

/-! ## Endpoint builders -/

/-- `NadaHarvester.ACCESS_TYPES`, with the numeric codes rendered the
way `'%s' %` renders them into the URL. -/
def ACCESS_TYPES : List (String × String) :=
  [("", ""), ("direct_access", "1"), ("public_use", "2"), ("licensed", "3"),
   ("data_enclave", "4"), ("data_external", "5"), ("no_data_available", "6"),
   ("open_data", "7")]

/-- `NadaHarvester._get_search_api`: the search URL path.  With an
access type, looks up its code in `ACCESS_TYPES` and raises
`AccessTypeNotAvailableError` (the `.error` case) on a `KeyError`;
with `None`, the path without the `dtype` parameter. -/
def get_search_api (access_type : Option String) (page : Nat) : Except String String :=
  match access_type with
  | some a =>
    match ACCESS_TYPES.lookup a with
    | some code =>
      Except.ok ("/index.php/api/v2/catalog/search/format/json/?dtype[]="
        ++ code ++ "&page=" ++ toString page)
    | none =>
      Except.error ("Access type " ++ a ++ " not available.")
  | none =>
    Except.ok ("/index.php/api/v2/catalog/search/format/json?page=" ++ toString page)

/-- `NadaHarvester._get_ddi_api`. -/
def get_ddi_api (ddi_id : String) : String :=
  "/index.php/catalog/ddi/" ++ ddi_id

/-- `NadaHarvester._get_catalog_path`. -/
def get_catalog_path (ddi_id : String) : String :=
  "/index.php/catalog/" ++ ddi_id

/-- The `public_use` fallback URL path used by `gather_stage` after an
`AccessTypeNotAvailableError` or `KeyError` (the lookup of
`'public_use'` always succeeds, so the `.error` branch is dead). -/
def fallback_api (page : Nat) : String :=
  match get_search_api (some "public_use") page with
  | Except.ok p => p
  | Except.error _ => ""

/-- The API URL built by one `gather_stage` iteration: `base_url` plus
the search path for the configured access type (`none` models a config
with no `access_type` key, whose `KeyError` is caught by the same
handler), falling back to `public_use` on failure. -/
def build_api_url (base : String) (cfg_access : Option String) (page : Nat) : String :=
  match cfg_access with
  | some a =>
    match get_search_api (some a) page with
    | Except.ok p => base ++ p
    | Except.error _ => base ++ fallback_api page
  | none => base ++ fallback_api page

/-! ## Normalization stage -/

/-- The license value chosen in `import_stage`: the harvester config's
`license` when present, otherwise the instance-wide
`ckanext.ddi.default_license` setting. -/
def licenseValue (cfg_license : Option String) (default_license : String) : String :=
  match cfg_license with
  | some l => l
  | none => default_license

/-- The `url` overwrite and license resolution steps of
`import_stage` applied to the reclassified dict. -/
def urlLicenseSteps (base_url guid : String) (cfg_license : Option String)
    (default_license : String) (pkgA : Dict) : Dict :=
  setKey (setKey pkgA "url"
      (Value.str (rstripSlash base_url ++ get_catalog_path guid)))
    "license_id" (Value.str (licenseValue cfg_license default_license))

/-- The tag loop of `import_stage`: keep only string tags, truncate
each to its first 100 characters, munge it. -/
def mungeTags (elems : List Value) : List Value :=
  elems.filterMap (fun t =>
    match t with
    | Value.str s => some (Value.str (munge_tag (pyTake s 100)))
    | _ => none)

/-- The tag rewrite step: `pkg_dict['tags'] = tags`. -/
def tagsStep (pkgC : Dict) (elems : List Value) : Dict :=
  setKey pkgC "tags" (Value.vlist (mungeTags elems))

/-- The version truncation step: `pkg_dict['version'] = ...[:100]`. -/
def versionStep (pkgD : Dict) (vv2 : Value) : Dict :=
  setKey pkgD "version" vv2

/-- The two synthetic resources appended by `import_stage`: the DDI
XML download and the NADA catalog entry (whose url is read back from
`pkg_dict['url']`). -/
def mkResources (base_url guid : String) (title urlv : Value) : Value :=
  Value.vlist
    [Value.res (Value.str (rstripSlash base_url ++ get_ddi_api guid))
       ("DDI XML of " ++ pyStr title) "xml",
     Value.res urlv "NADA catalog entry" "html"]

/-- `NadaHarvester.import_stage`, from the point where the document
parser has produced the raw attribute map `pkg0` (the external
`DdiCkanMetadata.load` collaborator) up to the package dictionary
handed to `_create_or_update_package`: reclassify unknown keys into
`extras`, overwrite `url` with the catalog link, resolve the license
from the harvester config or the instance default, filter and munge
tags, truncate the version, and install the two synthetic resources.
`.error` models the `except` clause of the stage (any raised
exception makes it return `False`); in particular missing `tags`,
`version` or `title` keys raise `KeyError`, and non-iterable tags or
an unsliceable version raise `TypeError`. -/
def import_stage (base_url : String) (guid : String) (cfg_license : Option String)
    (default_license : String) (pkg0 : Dict) : Except Unit Dict :=
  match convert_to_extras pkg0 with
  | Except.error e => Except.error e
  | Except.ok pkgA =>
    let pkgC := urlLicenseSteps base_url guid cfg_license default_license pkgA
    match dlookup pkgC "tags" with
    | none => Except.error ()
    | some tv =>
      match iterElems tv with
      | none => Except.error ()
      | some elems =>
        let pkgD := tagsStep pkgC elems
        match dlookup pkgD "version" with
        | none => Except.error ()
        | some vv =>
          match slice100 vv with
          | none => Except.error ()
          | some vv2 =>
            let pkgE := versionStep pkgD vv2
            match dlookup pkgE "title", dlookup pkgE "url" with
            | some title, some urlv =>
              Except.ok (setKey pkgE "resources"
                (mkResources base_url guid title urlv))
            | _, _ => Except.error ()

/-! ## Discovery stage -/

/-- One decoded JSON page of the NADA search API.  `rows` carries the
`id` of each row (the only field `gather_stage` reads); the three
counters are `Option` because `int(data[...])` raises a `KeyError`
when the field is missing — an error that strikes only after the
page's rows have already been saved. -/
structure PageData where
  rows : List String
  offset : Option Int
  limit : Option Int
  found : Option Int

/-- Outcome of a `gather_stage` run: normal termination with the saved
harvest-object ids and the pages requested; a fatal error (the single
`_save_gather_error` call), still carrying what was saved before it;
or exhaustion of the step budget — the loop is still running. -/
inductive GatherResult where
  | ok (ids : List String) (visited : List Nat)
  | fatal (ids : List String) (visited : List Nat) (errMsg : String)
  | outOfFuel (ids : List String) (visited : List Nat)

/-- The run-level error message of `_save_gather_error`, carrying the
failing URL and the underlying cause (the runtime-dependent traceback
suffix is abstracted away). -/
def gatherErrMsg (api_url : String) (cause : String) : String :=
  "Unable to get content for URL: " ++ api_url ++ ": " ++ cause

/-- The `while continue_gather` loop of `NadaHarvester.gather_stage`.
`pages` is the remote server: page number to decoded response, or a
network/JSON-decoding failure.  Each iteration builds the API URL
(with the `public_use` fallback), fetches the page, saves one harvest
object per row, and continues exactly when `offset + limit < found`;
any failure aborts the whole loop with a single run-level error.
`fuel` bounds the number of iterations so that the embedding is total;
the code itself has no such bound. -/
def gather_loop (pages : Nat → Except String PageData) (base : String)
    (cfg_access : Option String) :
    Nat → Nat → List String → List Nat → GatherResult
  | 0, _, ids, visited => GatherResult.outOfFuel ids visited
  | fuel + 1, page, ids, visited =>
    let api_url := build_api_url base cfg_access page
    match pages page with
    | Except.error e =>
      GatherResult.fatal ids (visited ++ [page]) (gatherErrMsg api_url e)
    | Except.ok d =>
      let ids2 := ids ++ d.rows
      match d.offset, d.limit, d.found with
      | some o, some l, some f =>
        if o + l < f then
          gather_loop pages base cfg_access fuel (page + 1) ids2 (visited ++ [page])
        else
          GatherResult.ok ids2 (visited ++ [page])
      | _, _, _ =>
        GatherResult.fatal ids2 (visited ++ [page]) (gatherErrMsg api_url "KeyError")

/-- `NadaHarvester.gather_stage`: run the loop from `page = 1` with no
ids gathered yet. -/
def gather_stage (pages : Nat → Except String PageData) (base : String)
    (cfg_access : Option String) (fuel : Nat) : GatherResult :=
  gather_loop pages base cfg_access fuel 1 [] []

/-- Whether a gather run is still in flight when its step budget runs
out (the embedded loop has not terminated by itself). -/
def GatherResult.isOutOfFuel : GatherResult → Bool
  | GatherResult.outOfFuel _ _ => true
  | _ => false

/-! ## Dictionary lemmas -/

theorem dlookup_append (d d2 : Dict) (k : String) :
    dlookup (d ++ d2) k =
      match dlookup d k with
      | some v => some v
      | none => dlookup d2 k := by
  induction d with
  | nil => rfl
  | cons kv rest ih =>
    obtain ⟨k2, v⟩ := kv
    by_cases h : k2 = k <;> simp [dlookup, h, ih]

theorem dlookup_filter_neg (p : String → Bool) (d : Dict) (k : String)
    (hk : p k = false) :
    dlookup (d.filter (fun kv => p kv.1)) k = none := by
  induction d with
  | nil => rfl
  | cons kv rest ih =>
    obtain ⟨k2, v⟩ := kv
    by_cases h : p k2 <;> by_cases h2 : k2 = k <;>
      simp_all [List.filter_cons, dlookup]

theorem dlookup_filter_pos (p : String → Bool) (d : Dict) (k : String)
    (hk : p k = true) :
    dlookup (d.filter (fun kv => p kv.1)) k = dlookup d k := by
  induction d with
  | nil => rfl
  | cons kv rest ih =>
    obtain ⟨k2, v⟩ := kv
    by_cases h2 : k2 = k
    · subst h2
      simp [List.filter_cons, hk, dlookup, ih]
    · by_cases h : p k2 <;> simp [List.filter_cons, h, h2, dlookup, ih]

theorem updKey_hit (k : String) (v : Value) (k2 : String) (w : Value)
    (h : k2 = k) : updKey k v (k2, w) = (k, v) := by
  simp [updKey, h]

theorem updKey_miss (k : String) (v : Value) (k2 : String) (w : Value)
    (h : ¬ k2 = k) : updKey k v (k2, w) = (k2, w) := by
  simp [updKey, h]

/-- Rewriting the binding of key `k` in place, seen on `k` itself. -/
theorem dlookup_map_upd_same (d : Dict) (k : String) (v : Value)
    (h : (dlookup d k).isSome) :
    dlookup (d.map (updKey k v)) k = some v := by
  induction d with
  | nil => simp [dlookup] at h
  | cons kv rest ih =>
    obtain ⟨k2, w⟩ := kv
    by_cases h2 : k2 = k
    · rw [List.map_cons, updKey_hit k v k2 w h2]
      simp [dlookup]
    · rw [List.map_cons, updKey_miss k v k2 w h2]
      simp only [dlookup, h2, if_false] at h ⊢
      exact ih h

/-- Rewriting the binding of key `k` in place, seen on other keys. -/
theorem dlookup_map_upd_other (d : Dict) (k k2 : String) (v : Value)
    (hne : k2 ≠ k) :
    dlookup (d.map (updKey k v)) k2 = dlookup d k2 := by
  induction d with
  | nil => rfl
  | cons kv rest ih =>
    obtain ⟨k3, w⟩ := kv
    by_cases h3 : k3 = k
    · rw [List.map_cons, updKey_hit k v k3 w h3]
      have h5 : ¬ k = k2 := fun h4 => hne h4.symm
      have h6 : ¬ k3 = k2 := by rw [h3]; exact h5
      simp [dlookup, h5, h6, ih]
    · rw [List.map_cons, updKey_miss k v k3 w h3]
      simp [dlookup, ih]

theorem dlookup_setKey_same (d : Dict) (k : String) (v : Value) :
    dlookup (setKey d k v) k = some v := by
  cases h : dlookup d k with
  | some w =>
    have hs : (dlookup d k).isSome := by rw [h]; rfl
    simp only [setKey, hs, if_true]
    exact dlookup_map_upd_same d k v hs
  | none =>
    simp only [setKey, h, Option.isSome_none, Bool.false_eq_true, if_false]
    rw [dlookup_append]
    simp [h, dlookup]

theorem dlookup_setKey_other (d : Dict) (k k2 : String) (v : Value)
    (hne : k2 ≠ k) :
    dlookup (setKey d k v) k2 = dlookup d k2 := by
  cases h : dlookup d k with
  | some w =>
    have hs : (dlookup d k).isSome := by rw [h]; rfl
    simp only [setKey, hs, if_true]
    exact dlookup_map_upd_other d k k2 v hne
  | none =>
    simp only [setKey, h, Option.isSome_none, Bool.false_eq_true, if_false]
    rw [dlookup_append]
    cases h6 : dlookup d k2 with
    | some v2 => simp
    | none =>
      have h7 : ¬ k = k2 := fun h8 => hne h8.symm
      simp [dlookup, h7]

theorem dlookup_eq_none_iff (d : Dict) (k : String) :
    dlookup d k = none ↔ k ∉ d.map Prod.fst := by
  induction d with
  | nil => simp [dlookup]
  | cons kv rest ih =>
    obtain ⟨k2, v⟩ := kv
    by_cases h2 : k2 = k
    · subst h2; simp [dlookup]
    · have heq : dlookup ((k2, v) :: rest) k = dlookup rest k := by
        simp [dlookup, h2]
      rw [heq, ih, List.map_cons, List.mem_cons]
      constructor
      · intro hn hm
        rcases hm with he | hm
        · exact h2 he.symm
        · exact hn hm
      · intro hn hm
        exact hn (Or.inr hm)

theorem dlookup_of_mem_nodup (d : Dict) (k : String) (v : Value)
    (hnd : (d.map Prod.fst).Nodup) (hm : (k, v) ∈ d) :
    dlookup d k = some v := by
  induction d with
  | nil => simp at hm
  | cons kv rest ih =>
    obtain ⟨k2, w⟩ := kv
    rw [List.map_cons, List.nodup_cons] at hnd
    rcases List.mem_cons.mp hm with h | h
    · injection h with h1 h2
      subst h1; subst h2
      simp [dlookup]
    · have hk2 : ¬ k2 = k := by
        intro he
        subst he
        have hmem := List.mem_map_of_mem Prod.fst h
        exact hnd.1 hmem
      simp [dlookup, hk2, ih hnd.2 h]

theorem mem_of_dlookup_eq_some (d : Dict) (k : String) (v : Value)
    (h : dlookup d k = some v) : (k, v) ∈ d := by
  induction d with
  | nil => simp [dlookup] at h
  | cons kv rest ih =>
    obtain ⟨k2, w⟩ := kv
    by_cases h2 : k2 = k
    · subst h2
      have hwv : some w = some v := by simpa [dlookup] using h
      injection hwv with hwv
      subst hwv
      exact List.mem_cons_self _ _
    · have h3 : dlookup rest k = some v := by simpa [dlookup, h2] using h
      exact List.mem_cons_of_mem _ (ih h3)

/-! ## Lemmas on `movedPairs` and `tupsWithKey` -/

theorem movedPairs_cons (k2 : String) (v : Value) (rest : Dict) :
    movedPairs ((k2, v) :: rest) =
      if isDefaultAttr k2 then movedPairs rest
      else Value.tup k2 v :: movedPairs rest := by
  by_cases h : isDefaultAttr k2 <;> simp [movedPairs, List.filter_cons, h]

theorem movedPairs_append (d d2 : Dict) :
    movedPairs (d ++ d2) = movedPairs d ++ movedPairs d2 := by
  simp [movedPairs, List.filter_append]

theorem movedPairs_extras_entry (x : Value) :
    movedPairs [("extras", x)] = [] := by
  rfl

theorem tupsWithKey_append (es es2 : List Value) (k : String) :
    tupsWithKey (es ++ es2) k = tupsWithKey es k ++ tupsWithKey es2 k := by
  simp [tupsWithKey, List.filter_append]

theorem tupsWithKey_cons_tup (es : List Value) (k2 k : String) (v : Value) :
    tupsWithKey (Value.tup k2 v :: es) k =
      if k2 = k then Value.tup k2 v :: tupsWithKey es k else tupsWithKey es k := by
  by_cases h : k2 = k <;> simp [tupsWithKey, List.filter_cons, h]

theorem tupsWithKey_eq_nil (es : List Value) (k : String)
    (h : ∀ v, Value.tup k v ∉ es) : tupsWithKey es k = [] := by
  induction es with
  | nil => rfl
  | cons x rest ih =>
    have hrest : ∀ v, Value.tup k v ∉ rest := fun v hv => h v (List.mem_cons_of_mem _ hv)
    cases x with
    | tup k2 v =>
      have hk2 : ¬ k2 = k := by
        intro he
        subst he
        exact h v (List.mem_cons_self _ _)
      rw [tupsWithKey_cons_tup, if_neg hk2]
      exact ih hrest
    | str s => simp [tupsWithKey, List.filter_cons] at ih ⊢; exact ih hrest
    | int n => simp [tupsWithKey, List.filter_cons] at ih ⊢; exact ih hrest
    | vlist l => simp [tupsWithKey, List.filter_cons] at ih ⊢; exact ih hrest
    | res a b c => simp [tupsWithKey, List.filter_cons] at ih ⊢; exact ih hrest

/-- The reclassification loop never moves a recognized key. -/
theorem tups_moved_default (d : Dict) (k : String) (hk : isDefaultAttr k = true) :
    tupsWithKey (movedPairs d) k = [] := by
  induction d with
  | nil => rfl
  | cons kv rest ih =>
    obtain ⟨k2, v⟩ := kv
    rw [movedPairs_cons]
    by_cases h2 : isDefaultAttr k2
    · rw [if_pos h2]; exact ih
    · rw [if_neg h2, tupsWithKey_cons_tup]
      have hne : ¬ k2 = k := by
        intro he; subst he; exact h2 hk
      rw [if_neg hne]; exact ih

/-- The reclassification loop moves nothing under a key the dict does
not have. -/
theorem tups_moved_not_key (d : Dict) (k : String)
    (h : dlookup d k = none) : tupsWithKey (movedPairs d) k = [] := by
  induction d with
  | nil => rfl
  | cons kv rest ih =>
    obtain ⟨k2, v⟩ := kv
    have h2 : ¬ k2 = k := by
      intro he; subst he; simp [dlookup] at h
    have hrest : dlookup rest k = none := by
      simpa [dlookup, h2] using h
    rw [movedPairs_cons]
    by_cases h3 : isDefaultAttr k2
    · rw [if_pos h3]; exact ih hrest
    · rw [if_neg h3, tupsWithKey_cons_tup, if_neg h2]
      exact ih hrest

/-- On a dict with unique keys, the reclassification loop moves each
unrecognized key exactly once, paired with its value. -/
theorem tups_moved_unique (d : Dict) (k : String) (v : Value)
    (hnd : (d.map Prod.fst).Nodup) (hm : (k, v) ∈ d)
    (hk : isDefaultAttr k = false) :
    tupsWithKey (movedPairs d) k = [Value.tup k v] := by
  induction d with
  | nil => simp at hm
  | cons kv rest ih =>
    obtain ⟨k2, w⟩ := kv
    rw [List.map_cons, List.nodup_cons] at hnd
    rcases List.mem_cons.mp hm with h | h
    · injection h with h1 h2
      subst h1; subst h2
      have hrest : dlookup rest k = none :=
        (dlookup_eq_none_iff rest k).mpr hnd.1
      rw [movedPairs_cons, if_neg (by rw [hk]; exact Bool.false_ne_true),
        tupsWithKey_cons_tup, if_pos rfl, tups_moved_not_key rest k hrest]
    · have hne : ¬ k2 = k := by
        intro he
        subst he
        have hmem := List.mem_map_of_mem Prod.fst h
        exact hnd.1 hmem
      rw [movedPairs_cons]
      by_cases h3 : isDefaultAttr k2
      · rw [if_pos h3]; exact ih hnd.2 h
      · rw [if_neg h3, tupsWithKey_cons_tup, if_neg hne]
        exact ih hnd.2 h

theorem isDefaultAttr_extras : isDefaultAttr "extras" = true := by
  rfl

/-! ## Claim theorems: reclassification -/

/-- C1: after the reclassification step (`_convert_to_extras`) of a raw
attribute map with unique keys whose pre-existing `extras` (if any) is
a list free of tuples that collide with the map's keys, every key not
in `DEFAULT_ATTRIBUTES` appears exactly once as a `(key, value)` tuple
in `extras` and is absent from the top level; every recognized key
keeps its top-level binding (value unchanged except for `extras`
itself) and is never copied into `extras`; no key is both top-level
and in `extras`, and no key is dropped. -/
theorem C1_reclassification_lossless (d : Dict)
    (hnd : (d.map Prod.fst).Nodup)
    (hex : dlookup d "extras" = none ∨
      ∃ es, dlookup d "extras" = some (Value.vlist es) ∧
        ∀ kv ∈ d, ∀ v, Value.tup kv.1 v ∉ es) :
    ∃ out esOut, convert_to_extras d = Except.ok out ∧
      extrasList out = some esOut ∧
      (∀ kv ∈ d, isDefaultAttr kv.1 = false →
        dlookup out kv.1 = none ∧ tupsWithKey esOut kv.1 = [Value.tup kv.1 kv.2]) ∧
      (∀ kv ∈ d, isDefaultAttr kv.1 = true → kv.1 ≠ "extras" →
        dlookup out kv.1 = some kv.2) ∧
      (∀ k, (dlookup out k).isSome → tupsWithKey esOut k = []) := by
  rcases hex with hA | ⟨es, hB, hNC⟩
  · -- the parser produced no `extras` key: it is initialized to []
    have hd1 : ensureExtras d = d ++ [("extras", Value.vlist [])] := by
      simp [ensureExtras, hA]
    have hd1some : dlookup (ensureExtras d) "extras" = some (Value.vlist []) := by
      rw [hd1, dlookup_append, hA]
      simp [dlookup]
    have hmoved : movedPairs (ensureExtras d) = movedPairs d := by
      rw [hd1, movedPairs_append, movedPairs_extras_entry, List.append_nil]
    refine ⟨((ensureExtras d).map
        (updKey "extras" (Value.vlist ([] ++ movedPairs (ensureExtras d))))).filter
          (fun kv => isDefaultAttr kv.1),
      [] ++ movedPairs (ensureExtras d), ?_, ?_, ?_, ?_, ?_⟩
    · simp only [convert_to_extras]
      rw [hd1some]
    · have houtlk : dlookup (((ensureExtras d).map
          (updKey "extras" (Value.vlist ([] ++ movedPairs (ensureExtras d))))).filter
            (fun kv => isDefaultAttr kv.1)) "extras" =
          some (Value.vlist ([] ++ movedPairs (ensureExtras d))) := by
        rw [dlookup_filter_pos isDefaultAttr _ "extras" isDefaultAttr_extras]
        exact dlookup_map_upd_same _ _ _ (by rw [hd1some]; rfl)
      simp only [extrasList, houtlk]
    · intro kv hm hunrec
      obtain ⟨k, v⟩ := kv
      constructor
      · exact dlookup_filter_neg isDefaultAttr _ k hunrec
      · rw [List.nil_append, hmoved]
        exact tups_moved_unique d k v hnd hm hunrec
    · intro kv hm hrec hne
      obtain ⟨k, v⟩ := kv
      rw [dlookup_filter_pos isDefaultAttr _ k hrec,
        dlookup_map_upd_other _ _ _ _ hne, hd1, dlookup_append,
        dlookup_of_mem_nodup d k v hnd hm]
    · intro k hk
      by_cases hrec : isDefaultAttr k
      · rw [List.nil_append, hmoved]
        exact tups_moved_default d k hrec
      · rw [dlookup_filter_neg isDefaultAttr _ k (Bool.eq_false_iff.mpr hrec)] at hk
        simp at hk
  · -- the parser produced an extras list already
    have hd1 : ensureExtras d = d := by
      simp [ensureExtras, hB]
    have hd1some : dlookup (ensureExtras d) "extras" = some (Value.vlist es) := by
      rw [hd1]; exact hB
    have hmoved : movedPairs (ensureExtras d) = movedPairs d := by
      rw [hd1]
    refine ⟨((ensureExtras d).map
        (updKey "extras" (Value.vlist (es ++ movedPairs (ensureExtras d))))).filter
          (fun kv => isDefaultAttr kv.1),
      es ++ movedPairs (ensureExtras d), ?_, ?_, ?_, ?_, ?_⟩
    · simp only [convert_to_extras]
      rw [hd1some]
    · have houtlk : dlookup (((ensureExtras d).map
          (updKey "extras" (Value.vlist (es ++ movedPairs (ensureExtras d))))).filter
            (fun kv => isDefaultAttr kv.1)) "extras" =
          some (Value.vlist (es ++ movedPairs (ensureExtras d))) := by
        rw [dlookup_filter_pos isDefaultAttr _ "extras" isDefaultAttr_extras]
        exact dlookup_map_upd_same _ _ _ (by rw [hd1some]; rfl)
      simp only [extrasList, houtlk]
    · intro kv hm hunrec
      obtain ⟨k, v⟩ := kv
      constructor
      · exact dlookup_filter_neg isDefaultAttr _ k hunrec
      · rw [tupsWithKey_append, hmoved,
          tupsWithKey_eq_nil es k (fun w hw => hNC (k, v) hm w hw),
          tups_moved_unique d k v hnd hm hunrec, List.nil_append]
    · intro kv hm hrec hne
      obtain ⟨k, v⟩ := kv
      rw [dlookup_filter_pos isDefaultAttr _ k hrec,
        dlookup_map_upd_other _ _ _ _ hne, hd1,
        dlookup_of_mem_nodup d k v hnd hm]
    · intro k hk
      by_cases hrec : isDefaultAttr k
      · rw [tupsWithKey_append, hmoved, tups_moved_default d k hrec, List.append_nil]
        by_cases hke : k = "extras"
        · subst hke
          exact tupsWithKey_eq_nil es "extras"
            (fun w hw => hNC ("extras", Value.vlist es) (mem_of_dlookup_eq_some d _ _ hB) w hw)
        · rw [dlookup_filter_pos isDefaultAttr _ k hrec,
            dlookup_map_upd_other _ _ _ _ hke, hd1] at hk
          obtain ⟨w, hw⟩ := Option.isSome_iff_exists.mp hk
          exact tupsWithKey_eq_nil es k
            (fun w2 hw2 => hNC (k, w) (mem_of_dlookup_eq_some d k w hw) w2 hw2)
      · rw [dlookup_filter_neg isDefaultAttr _ k (Bool.eq_false_iff.mpr hrec)] at hk
        simp at hk

/-- A small concrete raw map without an `extras` key. -/
def rawNoExtras : Dict :=
  [("id", Value.str "1"), ("foo", Value.str "bar")]

/-- A small concrete raw map with a pre-existing `extras` list. -/
def rawWithExtras : Dict :=
  [("extras", Value.vlist [Value.str "e"]), ("foo", Value.str "bar")]

/-- Witness for C1 at a concrete raw map. -/
theorem C1_reclassification_lossless_witness :
    ∃ out esOut, convert_to_extras rawNoExtras = Except.ok out ∧
      extrasList out = some esOut ∧
      (∀ kv ∈ rawNoExtras, isDefaultAttr kv.1 = false →
        dlookup out kv.1 = none ∧ tupsWithKey esOut kv.1 = [Value.tup kv.1 kv.2]) ∧
      (∀ kv ∈ rawNoExtras, isDefaultAttr kv.1 = true → kv.1 ≠ "extras" →
        dlookup out kv.1 = some kv.2) ∧
      (∀ k, (dlookup out k).isSome → tupsWithKey esOut k = []) :=
  C1_reclassification_lossless rawNoExtras (by decide) (Or.inl rfl)

/-- C10: if the raw map already has an `extras` key it is kept (it is
recognized, never moved), and the reclassified pairs are appended
after the pre-existing `extras` entries, in map iteration order; when
the raw map has no `extras` key, `extras` starts from the empty list,
so the result is exactly the reclassified pairs. -/
theorem C10_extras_append_order (d : Dict) :
    (∀ es, dlookup d "extras" = some (Value.vlist es) →
      ∃ out, convert_to_extras d = Except.ok out ∧
        (dlookup out "extras").isSome ∧
        extrasList out = some (es ++ movedPairs d)) ∧
    (dlookup d "extras" = none →
      ∃ out, convert_to_extras d = Except.ok out ∧
        extrasList out = some (movedPairs d)) := by
  constructor
  · intro es hB
    have hd1 : ensureExtras d = d := by
      simp [ensureExtras, hB]
    have hd1some : dlookup (ensureExtras d) "extras" = some (Value.vlist es) := by
      rw [hd1]; exact hB
    refine ⟨((ensureExtras d).map
        (updKey "extras" (Value.vlist (es ++ movedPairs (ensureExtras d))))).filter
          (fun kv => isDefaultAttr kv.1), ?_, ?_, ?_⟩
    · simp only [convert_to_extras]
      rw [hd1some]
    · rw [dlookup_filter_pos isDefaultAttr _ "extras" isDefaultAttr_extras]
      rw [dlookup_map_upd_same _ _ _ (by rw [hd1some]; rfl)]
      rfl
    · have houtlk : dlookup (((ensureExtras d).map
          (updKey "extras" (Value.vlist (es ++ movedPairs (ensureExtras d))))).filter
            (fun kv => isDefaultAttr kv.1)) "extras" =
          some (Value.vlist (es ++ movedPairs (ensureExtras d))) := by
        rw [dlookup_filter_pos isDefaultAttr _ "extras" isDefaultAttr_extras]
        exact dlookup_map_upd_same _ _ _ (by rw [hd1some]; rfl)
      simp only [extrasList, houtlk]
      rw [hd1]
  · intro hA
    have hd1 : ensureExtras d = d ++ [("extras", Value.vlist [])] := by
      simp [ensureExtras, hA]
    have hd1some : dlookup (ensureExtras d) "extras" = some (Value.vlist []) := by
      rw [hd1, dlookup_append, hA]
      simp [dlookup]
    have hmoved : movedPairs (ensureExtras d) = movedPairs d := by
      rw [hd1, movedPairs_append, movedPairs_extras_entry, List.append_nil]
    refine ⟨((ensureExtras d).map
        (updKey "extras" (Value.vlist ([] ++ movedPairs (ensureExtras d))))).filter
          (fun kv => isDefaultAttr kv.1), ?_, ?_⟩
    · simp only [convert_to_extras]
      rw [hd1some]
    · have houtlk : dlookup (((ensureExtras d).map
          (updKey "extras" (Value.vlist ([] ++ movedPairs (ensureExtras d))))).filter
            (fun kv => isDefaultAttr kv.1)) "extras" =
          some (Value.vlist ([] ++ movedPairs (ensureExtras d))) := by
        rw [dlookup_filter_pos isDefaultAttr _ "extras" isDefaultAttr_extras]
        exact dlookup_map_upd_same _ _ _ (by rw [hd1some]; rfl)
      have h2 : extrasList (((ensureExtras d).map
          (updKey "extras" (Value.vlist ([] ++ movedPairs (ensureExtras d))))).filter
            (fun kv => isDefaultAttr kv.1)) =
          some ([] ++ movedPairs (ensureExtras d)) := by
        simp only [extrasList, houtlk]
      rw [h2, List.nil_append, hmoved]

/-- Witness for C10 at concrete raw maps, with and without a
pre-existing `extras` list. -/
theorem C10_extras_append_order_witness :
    (∃ out, convert_to_extras rawWithExtras = Except.ok out ∧
      (dlookup out "extras").isSome ∧
      extrasList out = some ([Value.str "e"] ++ movedPairs rawWithExtras)) ∧
    (∃ out, convert_to_extras rawNoExtras = Except.ok out ∧
      extrasList out = some (movedPairs rawNoExtras)) :=
  ⟨(C10_extras_append_order rawWithExtras).1 [Value.str "e"] rfl,
   (C10_extras_append_order rawNoExtras).2 rfl⟩

/-! ## Claim theorems: endpoint builder -/

/-- C8 counterexample: with an access-type filter the code emits a
trailing slash after `format/json` before the query string, so the URL
is not the `format/json?dtype[]=...` form the claim states. -/
theorem C8_counterexample :
    get_search_api (some "direct_access") 1 =
      Except.ok "/index.php/api/v2/catalog/search/format/json/?dtype[]=1&page=1" ∧
    "/index.php/api/v2/catalog/search/format/json/?dtype[]=1&page=1" ≠
      "/index.php/api/v2/catalog/search/format/json?dtype[]=1&page=1" :=
  ⟨rfl, by decide⟩

/-- C8 (amended): for every access type in `ACCESS_TYPES` with code
`c` and every page `n`, the filtered search URL is
`{base_url}/index.php/api/v2/catalog/search/format/json/?dtype[]=c&page=n`
(with a slash between `json` and the query string), and without a
filter it is `{base_url}/index.php/api/v2/catalog/search/format/json?page=n`
(no slash). -/
theorem C8_search_url (a code base : String) (page : Nat)
    (h : ACCESS_TYPES.lookup a = some code) :
    get_search_api (some a) page =
      Except.ok ("/index.php/api/v2/catalog/search/format/json/?dtype[]=" ++ code
        ++ "&page=" ++ toString page) ∧
    build_api_url base (some a) page =
      base ++ ("/index.php/api/v2/catalog/search/format/json/?dtype[]=" ++ code
        ++ "&page=" ++ toString page) ∧
    get_search_api none page =
      Except.ok ("/index.php/api/v2/catalog/search/format/json?page=" ++ toString page) := by
  refine ⟨?_, ?_, rfl⟩
  · simp [get_search_api, h]
  · simp [build_api_url, get_search_api, h]

/-- Witness for C8's amended statement at a concrete access type and
page. -/
theorem C8_search_url_witness :
    ACCESS_TYPES.lookup "direct_access" = some "1" ∧
    (get_search_api (some "direct_access") 1 =
      Except.ok ("/index.php/api/v2/catalog/search/format/json/?dtype[]=" ++ "1"
        ++ "&page=" ++ toString 1) ∧
    build_api_url "http://h" (some "direct_access") 1 =
      "http://h" ++ ("/index.php/api/v2/catalog/search/format/json/?dtype[]=" ++ "1"
        ++ "&page=" ++ toString 1) ∧
    get_search_api none 1 =
      Except.ok ("/index.php/api/v2/catalog/search/format/json?page=" ++ toString 1)) :=
  ⟨rfl, C8_search_url "direct_access" "1" "http://h" 1 rfl⟩

/-- C5: a non-empty access type that is not a key of `ACCESS_TYPES`
makes `_get_search_api` raise `AccessTypeNotAvailableError`, and the
gather stage then rebuilds the URL for the same page with the
`public_use` access type. -/
theorem C5_access_type_fallback (a base : String) (page : Nat)
    (hne : a ≠ "") (h : ACCESS_TYPES.lookup a = none) :
    (∃ msg, get_search_api (some a) page = Except.error msg) ∧
    build_api_url base (some a) page = base ++ fallback_api page ∧
    Except.ok (fallback_api page) = get_search_api (some "public_use") page := by
  refine ⟨⟨"Access type " ++ a ++ " not available.", ?_⟩, ?_, rfl⟩
  · simp [get_search_api, h]
  · simp [build_api_url, get_search_api, h]

/-- Witness for C5 at a concrete invalid access type. -/
theorem C5_access_type_fallback_witness :
    ("bogus" : String) ≠ "" ∧
    ((∃ msg, get_search_api (some "bogus") 7 = Except.error msg) ∧
    build_api_url "http://h" (some "bogus") 7 = "http://h" ++ fallback_api 7 ∧
    Except.ok (fallback_api 7) = get_search_api (some "public_use") 7) :=
  ⟨by decide, C5_access_type_fallback "bogus" "http://h" 7 (by decide) rfl⟩

/-! ## Claim theorems: discovery -/

/-- A server whose every page reports no rows and found = 0
(limit 10). -/
def pagesFound0 : Nat → Except String PageData := fun _ =>
  Except.ok ⟨[], some 0, some 10, some 0⟩

/-- The 25 record ids of the three-page discovery example. -/
def idsFound25 : List String :=
  ["1", "2", "3", "4", "5", "6", "7", "8", "9", "10",
   "11", "12", "13", "14", "15", "16", "17", "18", "19", "20",
   "21", "22", "23", "24", "25"]

/-- A server reporting found = 25, limit = 10: three pages with
offsets 0, 10, 20 carrying 10, 10 and 5 rows. -/
def pagesFound25 : Nat → Except String PageData
  | 1 => Except.ok ⟨idsFound25.take 10, some 0, some 10, some 25⟩
  | 2 => Except.ok ⟨(idsFound25.drop 10).take 10, some 10, some 10, some 25⟩
  | 3 => Except.ok ⟨idsFound25.drop 20, some 20, some 10, some 25⟩
  | _ => Except.error "no such page"

/-- C3: discovery starts at page 1 and requests the next page exactly
when `offset + limit < found`; the found = 0 run stops after exactly
one page with zero items, and the found = 25, limit = 10 run stops
after exactly three pages (offsets 0, 10, 20) yielding the 25 items. -/
theorem C3_pagination_termination
    (pages : Nat → Except String PageData) (base : String) (cfg : Option String)
    (fuel page : Nat) (ids : List String) (visited : List Nat)
    (d : PageData) (o l f : Int)
    (hp : pages page = Except.ok d) (ho : d.offset = some o)
    (hl : d.limit = some l) (hf : d.found = some f) :
    (¬ o + l < f →
      gather_loop pages base cfg (fuel + 1) page ids visited =
        GatherResult.ok (ids ++ d.rows) (visited ++ [page])) ∧
    (o + l < f →
      gather_loop pages base cfg (fuel + 1) page ids visited =
        gather_loop pages base cfg fuel (page + 1) (ids ++ d.rows) (visited ++ [page])) ∧
    gather_stage pagesFound0 "http://h" none 5 = GatherResult.ok [] [1] ∧
    gather_stage pagesFound25 "http://h" none 5 =
      GatherResult.ok idsFound25 [1, 2, 3] ∧
    idsFound25.length = 25 := by
  refine ⟨?_, ?_, rfl, rfl, rfl⟩
  · intro h
    simp only [gather_loop, hp, ho, hl, hf, if_neg h]
  · intro h
    simp only [gather_loop, hp, ho, hl, hf, if_pos h]

/-- Witness for C3: on the found = 25 server the first page's counters
satisfy the continuation condition and the loop proceeds to page 2
carrying the ten ids already gathered. -/
theorem C3_pagination_termination_witness :
    gather_loop pagesFound25 "http://h" none 5 1 [] [] =
      gather_loop pagesFound25 "http://h" none 4 2 (idsFound25.take 10) [1] :=
  (C3_pagination_termination pagesFound25 "http://h" none 4 1 [] []
      ⟨idsFound25.take 10, some 0, some 10, some 25⟩ 0 10 25
      rfl rfl rfl rfl).2.1 (by decide)

/-- A server that never advances: every page reports offset 0,
limit 0, found 1. -/
def pagesStuck : Nat → Except String PageData := fun _ =>
  Except.ok ⟨[], some 0, some 0, some 1⟩

theorem gather_loop_stuck_runs_forever (fuel : Nat) :
    ∀ page ids visited,
      (gather_loop pagesStuck "http://h" none fuel page ids visited).isOutOfFuel = true := by
  induction fuel with
  | zero => intro page ids visited; rfl
  | succ n ih =>
    intro page ids visited
    have hstep : gather_loop pagesStuck "http://h" none (n + 1) page ids visited =
        gather_loop pagesStuck "http://h" none n (page + 1) (ids ++ []) (visited ++ [page]) := by
      simp only [gather_loop, pagesStuck]
      rw [if_pos (by decide : (0 : Int) + 0 < 1)]
    rw [hstep]
    exact ih (page + 1) (ids ++ []) (visited ++ [page])

/-- C4: the code has no forward-progress guard.  Against a server
whose offset/limit pair never advances, `gather_stage` neither
terminates normally nor raises any fatal run-level error: it exhausts
every step budget and is still requesting pages.  The claimed fatal
infinite-loop guard does not exist in the code (the spec flags it as a
defensive addition the implementation lacks). -/
theorem C4_no_progress_guard_missing (fuel : Nat) :
    (gather_stage pagesStuck "http://h" none fuel).isOutOfFuel = true :=
  gather_loop_stuck_runs_forever fuel 1 [] []

/-- A server whose page decodes but lacks the `found` field. -/
def pagesMissingField : Nat → Except String PageData := fun _ =>
  Except.ok ⟨["a"], some 0, some 10, none⟩

/-- C9: a network/JSON-decoding failure, or a decoded page with a
missing counter field, aborts the discovery loop at once with a single
run-level error carrying the failing URL and the underlying cause,
while every id gathered from earlier pages is preserved in the
result (for a missing field, the failing page's own rows were already
saved too). -/
theorem C9_discovery_error_once
    (pages : Nat → Except String PageData) (base : String) (cfg : Option String)
    (fuel page : Nat) (ids : List String) (visited : List Nat) :
    (∀ e, pages page = Except.error e →
      gather_loop pages base cfg (fuel + 1) page ids visited =
        GatherResult.fatal ids (visited ++ [page])
          (gatherErrMsg (build_api_url base cfg page) e)) ∧
    (∀ d, pages page = Except.ok d → d.found = none →
      gather_loop pages base cfg (fuel + 1) page ids visited =
        GatherResult.fatal (ids ++ d.rows) (visited ++ [page])
          (gatherErrMsg (build_api_url base cfg page) "KeyError")) := by
  constructor
  · intro e hp
    simp only [gather_loop, hp]
  · intro d hp hf
    obtain ⟨rows, off, lim, fnd⟩ := d
    simp only at hf
    subst hf
    cases off <;> cases lim <;> simp only [gather_loop, hp]

/-- Witness for C9: the found = 25 server has no page 4, so a loop
arriving there with the 25 ids aborts with one run-level error and
keeps them; and a page missing its `found` field aborts likewise after
saving that page's rows. -/
theorem C9_discovery_error_once_witness :
    gather_loop pagesFound25 "http://h" none 3 4 idsFound25 [1, 2, 3] =
      GatherResult.fatal idsFound25 [1, 2, 3, 4]
        (gatherErrMsg (build_api_url "http://h" none 4) "no such page") ∧
    gather_loop pagesMissingField "http://h" none 1 1 [] [] =
      GatherResult.fatal ["a"] [1]
        (gatherErrMsg (build_api_url "http://h" none 1) "KeyError") :=
  ⟨(C9_discovery_error_once pagesFound25 "http://h" none 2 4 idsFound25 [1, 2, 3]).1
      "no such page" rfl,
   (C9_discovery_error_once pagesMissingField "http://h" none 0 1 [] []).2
      ⟨["a"], some 0, some 10, none⟩ rfl rfl⟩

/-! ## Claim theorems: normalization -/

/-- The `url` binding written by the url step survives the
license, tags and version steps untouched. -/
theorem dlookup_url_through_steps (b g : String) (cl : Option String) (dl : String)
    (pkgA : Dict) (elems : List Value) (vv2 : Value) :
    dlookup (versionStep (tagsStep (urlLicenseSteps b g cl dl pkgA) elems) vv2) "url" =
      some (Value.str (rstripSlash b ++ get_catalog_path g)) := by
  unfold versionStep tagsStep urlLicenseSteps
  rw [dlookup_setKey_other _ _ _ _ (by decide : ("url" : String) ≠ "version"),
    dlookup_setKey_other _ _ _ _ (by decide : ("url" : String) ≠ "tags"),
    dlookup_setKey_other _ _ _ _ (by decide : ("url" : String) ≠ "license_id"),
    dlookup_setKey_same]

/-- Inversion of a successful `import_stage` run: the output is the
version/tags/license/url pipeline applied to the reclassified dict,
with the two synthetic resources installed last, and the catalog-page
URL as the second resource's url (read back from `pkg_dict['url']`). -/
theorem import_stage_ok_inv (b g : String) (cl : Option String) (dl : String)
    (p0 out : Dict) (h : import_stage b g cl dl p0 = Except.ok out) :
    ∃ pkgA elems vv2 title,
      out = setKey (versionStep (tagsStep (urlLicenseSteps b g cl dl pkgA) elems) vv2)
        "resources"
        (mkResources b g title (Value.str (rstripSlash b ++ get_catalog_path g))) := by
  unfold import_stage at h
  cases hconv : convert_to_extras p0 with
  | error e => rw [hconv] at h; exact (Except.noConfusion h)
  | ok pkgA =>
    rw [hconv] at h
    dsimp only at h
    cases htv : dlookup (urlLicenseSteps b g cl dl pkgA) "tags" with
    | none => rw [htv] at h; exact (Except.noConfusion h)
    | some tv =>
      rw [htv] at h
      dsimp only at h
      cases hel : iterElems tv with
      | none => rw [hel] at h; exact (Except.noConfusion h)
      | some elems =>
        rw [hel] at h
        dsimp only at h
        cases hvv : dlookup (tagsStep (urlLicenseSteps b g cl dl pkgA) elems) "version" with
        | none => rw [hvv] at h; exact (Except.noConfusion h)
        | some vv =>
          rw [hvv] at h
          dsimp only at h
          cases hsl : slice100 vv with
          | none => rw [hsl] at h; exact (Except.noConfusion h)
          | some vv2 =>
            rw [hsl] at h
            dsimp only at h
            cases htitle : dlookup
                (versionStep (tagsStep (urlLicenseSteps b g cl dl pkgA) elems) vv2)
                "title" with
            | none =>
              cases hurl : dlookup
                  (versionStep (tagsStep (urlLicenseSteps b g cl dl pkgA) elems) vv2)
                  "url" with
              | none => rw [htitle, hurl] at h; exact (Except.noConfusion h)
              | some urlv => rw [htitle, hurl] at h; exact (Except.noConfusion h)
            | some title =>
              cases hurl : dlookup
                  (versionStep (tagsStep (urlLicenseSteps b g cl dl pkgA) elems) vv2)
                  "url" with
              | none => rw [htitle, hurl] at h; exact (Except.noConfusion h)
              | some urlv =>
                rw [htitle, hurl] at h
                dsimp only at h
                injection h with h2
                have hurlv : urlv = Value.str (rstripSlash b ++ get_catalog_path g) := by
                  rw [dlookup_url_through_steps] at hurl
                  injection hurl with h3
                  exact h3.symm
                subst hurlv
                exact ⟨pkgA, elems, vv2, title, h2.symm⟩

/-- C7: whenever `import_stage` emits a record, its `url` field is the
canonical catalog-page link `{base_url}/index.php/catalog/{guid}`,
regardless of any `url` the parser produced in the raw map. -/
theorem C7_url_rewrite (b g : String) (cl : Option String) (dl : String)
    (p0 out : Dict) (h : import_stage b g cl dl p0 = Except.ok out) :
    dlookup out "url" = some (Value.str (rstripSlash b ++ get_catalog_path g)) := by
  obtain ⟨pkgA, elems, vv2, title, hout⟩ := import_stage_ok_inv b g cl dl p0 out h
  rw [hout,
    dlookup_setKey_other _ _ _ _ (by decide : ("url" : String) ≠ "resources"),
    dlookup_url_through_steps]

/-- C2: whenever `import_stage` emits a record, its `resources` field
holds exactly two entries, synthesized by the stage itself: the raw
DDI XML link with format `xml` and the canonical catalog-page link
with format `html`; resources supplied by the source document never
appear here (an unrecognized `resources` key was reclassified into
`extras`, and the field is overwritten in any case). -/
theorem C2_resources_synthetic (b g : String) (cl : Option String) (dl : String)
    (p0 out : Dict) (h : import_stage b g cl dl p0 = Except.ok out) :
    ∃ n, dlookup out "resources" = some (Value.vlist
      [Value.res (Value.str (rstripSlash b ++ get_ddi_api g)) n "xml",
       Value.res (Value.str (rstripSlash b ++ get_catalog_path g))
         "NADA catalog entry" "html"]) := by
  obtain ⟨pkgA, elems, vv2, title, hout⟩ := import_stage_ok_inv b g cl dl p0 out h
  refine ⟨"DDI XML of " ++ pyStr title, ?_⟩
  rw [hout, dlookup_setKey_same]
  rfl

/-- 100 `x` characters: the truncation of the 200-character tag. -/
def xChars100 : String := String.mk (List.replicate 100 'x')

/-- 100 `v` characters: the truncation of the 200-character version. -/
def vChars100 : String := String.mk (List.replicate 100 'v')

/-- The raw attribute map of the normalization example: a 200-character
tag, a non-string tag, a 200-character version, and one unrecognized
key. -/
def rawExample : Dict :=
  [("id", Value.str "1"), ("title", Value.str "T"),
   ("tags", Value.vlist [Value.str "Foo Bar",
     Value.str (String.mk (List.replicate 200 'x')), Value.int 42]),
   ("version", Value.str (String.mk (List.replicate 200 'v'))),
   ("custom_field", Value.str "Z")]

/-- C6: on the example raw map, normalization keeps only the string
tags, truncating each to 100 characters before munging — giving
`["foo-bar", munge of 100 x's]` — truncates the version to exactly 100
characters, moves `("custom_field", "Z")` into `extras`, and leaves no
top-level `custom_field` key. -/
theorem C6_normalization_example :
    ∃ out, import_stage "http://example.com/" "1" none "" rawExample = Except.ok out ∧
      dlookup out "tags" =
        some (Value.vlist [Value.str "foo-bar", Value.str (munge_tag xChars100)]) ∧
      dlookup out "version" = some (Value.str vChars100) ∧
      vChars100.length = 100 ∧
      extrasList out = some [Value.tup "custom_field" (Value.str "Z")] ∧
      dlookup out "custom_field" = none := by
  refine ⟨_, rfl, ?_, ?_, ?_, ?_, ?_⟩ <;> rfl

/-- Witness for C7 at the concrete example input. -/
theorem C7_url_rewrite_witness :
    ∃ out, import_stage "http://example.com/" "1" none "" rawExample = Except.ok out ∧
      dlookup out "url" =
        some (Value.str (rstripSlash "http://example.com/" ++ get_catalog_path "1")) := by
  refine ⟨_, rfl, ?_⟩
  exact C7_url_rewrite "http://example.com/" "1" none "" rawExample _ rfl

/-- Witness for C2 at the concrete example input. -/
theorem C2_resources_synthetic_witness :
    ∃ out, import_stage "http://example.com/" "1" none "" rawExample = Except.ok out ∧
      ∃ n, dlookup out "resources" = some (Value.vlist
        [Value.res (Value.str (rstripSlash "http://example.com/" ++ get_ddi_api "1"))
           n "xml",
         Value.res (Value.str (rstripSlash "http://example.com/" ++ get_catalog_path "1"))
           "NADA catalog entry" "html"]) := by
  refine ⟨_, rfl, ?_⟩
  exact C2_resources_synthetic "http://example.com/" "1" none "" rawExample _ rfl
